import Mathlib

/-!
# adyen-api-go: the request executor and the URL builders

A shallow embedding of `src/adyen.go`.

Conventions of the embedding.

* Go `string` and `[]byte` values are Lean `String`s; where bytes matter (the
  Basic-Auth header) a string stands for its UTF-8 encoding.
* A Go result pair `(*Response, error)` is a pair of `Option`s, `none` being `nil`.
* What `execute` does to the outside world is returned as a list of `Event`s, in
  the order in which the effects happen.
* The standard library the code calls (`json.Marshal`, the URL parser inside
  `http.NewRequest`, `http.Client.Do`) is a parameter, `Env`.
* `Response.handleHTTPError` is called by `execute` but is not among the sources:
  `execute` takes it as its first argument, and `handleHTTPError` below is the
  spec's description of it.
-/

set_option autoImplicit false
set_option linter.dupNamespace false

namespace adyen

/-! ## Data model -/

/-- Go `error` values. `failure` is an error made by a library call, `remote` the error the
spec describes for a rejected call: it carries the HTTP status code and the body. -/
inductive Error where
  | failure (msg : String)
  | remote (status : Int) (body : String)
deriving DecidableEq, Repr

/-- A `*log.Logger`, known by its identity only. -/
structure log.Logger where
  id : Nat
deriving DecidableEq, Repr

/-- Adyen - base structure with configuration options (`adyen.go`, lines 24-32). -/
structure Adyen where
  Username : String
  Password : String
  ClientID : String
  MerchantAccount : String
  Currency : String
  Logger : Option log.Logger
deriving DecidableEq, Repr

/-- Default currency for transactions. -/
def DefaultCurrency : String := "EUR"

/-- Version of the Adyen API. -/
def APIVersion : String := "v25"

/-- Base URL of the payment API (test environment). -/
def AdyenTestURL : String := "https://pal-test.adyen.com/pal/servlet/Payment"

/-- Base URL of the hosted client-side encryption page (test environment). -/
def AdyenClientTestURL : String := "https://test.adyen.com/hpp/cse/js/"

/-- New - creates an Adyen instance; the logger field is left at its zero value. -/
def New (username password clientID merchantAccount : String) : Adyen :=
  { Username := username
    Password := password
    ClientID := clientID
    MerchantAccount := merchantAccount
    Currency := DefaultCurrency
    Logger := none }

/-- ClientURL - the URL to load in the UI to encrypt credit card information. -/
def Adyen.ClientURL (a : Adyen) : String :=
  AdyenClientTestURL ++ a.ClientID ++ ".shtml"

/-- AdyenURL - the Adyen backend URL of a request type. -/
def Adyen.AdyenURL (_a : Adyen) (requestType : String) : String :=
  AdyenTestURL ++ "/" ++ APIVersion ++ "/" ++ requestType

/-- AttachLogger - attach a logger (possibly nil) to the instance. -/
def Adyen.AttachLogger (a : Adyen) (logger : Option log.Logger) : Adyen :=
  { a with Logger := logger }

/-- SetCurrency - set the default currency for transactions. -/
def Adyen.SetCurrency (a : Adyen) (currency : String) : Adyen :=
  { a with Currency := currency }

/-- One configuration call on a client. -/
inductive ConfigOp where
  | setCurrency (currency : String)
  | attachLogger (logger : Option log.Logger)
deriving DecidableEq, Repr

/-- Run one configuration call. -/
def ConfigOp.apply (a : Adyen) : ConfigOp → Adyen
  | .setCurrency c => a.SetCurrency c
  | .attachLogger l => a.AttachLogger l

/-- Run a sequence of configuration calls, first to last. -/
def configure (a : Adyen) (ops : List ConfigOp) : Adyen :=
  ops.foldl ConfigOp.apply a

/-! ## The HTTP vocabulary of `execute` -/

/-- The alphabet of `base64.StdEncoding`. -/
def encodeStd : List Char :=
  "ABCDEFGHIJKLMNOPQRSTUVWXYZabcdefghijklmnopqrstuvwxyz0123456789+/".data

/-- The character of a 6-bit value. -/
def b64Char (n : Nat) : Char := encodeStd.getD n 'A'

/-- The 6-bit value of a character of the alphabet. -/
def b64Index (c : Char) : Option Nat :=
  let i := encodeStd.indexOf c
  if i < 64 then some i else none

/-- Standard base64 with padding, three bytes to four characters
(`base64.StdEncoding.EncodeToString`). -/
def base64Encode : List Nat → List Char
  | a :: b :: c :: rest =>
      b64Char (a / 4) :: b64Char (a % 4 * 16 + b / 16) :: b64Char (b % 16 * 4 + c / 64)
        :: b64Char (c % 64) :: base64Encode rest
  | [a, b] => [b64Char (a / 4), b64Char (a % 4 * 16 + b / 16), b64Char (b % 16 * 4), '=']
  | [a] => [b64Char (a / 4), b64Char (a % 4 * 16), '=', '=']
  | [] => []

/-- Decoder of standard padded base64, used to read a Basic-Auth header back. -/
def base64Decode : List Char → Option (List Nat)
  | [] => some []
  | w :: x :: y :: z :: rest =>
      match b64Index w, b64Index x with
      | some i, some j =>
          if y = '=' ∧ z = '=' ∧ rest = [] then some [i * 4 + j / 16]
          else
            match b64Index y with
            | none => none
            | some k =>
                if z = '=' ∧ rest = [] then some [i * 4 + j / 16, j % 16 * 16 + k / 4]
                else
                  match b64Index z, base64Decode rest with
                  | some l, some tl =>
                      some ((i * 4 + j / 16) :: (j % 16 * 16 + k / 4) :: (k % 4 * 64 + l) :: tl)
                  | _, _ => none
      | _, _ => none
  | _ => none

/-- The bytes of a string: its UTF-8 encoding. -/
def bytesOf (s : String) : List Nat :=
  (s.data.flatMap String.utf8EncodeChar).map UInt8.toNat

/-- The helper `basicAuth` of `net/http`: base64 of `username:password`. -/
def basicAuth (username password : String) : String :=
  ⟨base64Encode (bytesOf (username ++ ":" ++ password))⟩

/-- An outgoing `*http.Request`, as far as `execute` touches it. -/
structure Request where
  Method : String
  URL : String
  Body : String
  Header : List (String × String)
deriving DecidableEq, Repr

/-- `Header.Set`: replace the values of a key by one value. Both keys `execute` sets are in
canonical form already. -/
def Request.SetHeader (r : Request) (key value : String) : Request :=
  { r with Header := r.Header.filter (fun kv => kv.1 != key) ++ [(key, value)] }

/-- `Header.Get`: the first value of a key, the empty string when there is none. -/
def Request.GetHeader (r : Request) (key : String) : String :=
  match r.Header.find? (fun kv => kv.1 == key) with
  | some kv => kv.2
  | none => ""

/-- `Request.SetBasicAuth`: set the Authorization header to `Basic`, a blank and
`basicAuth username password`. -/
def Request.SetBasicAuth (r : Request) (username password : String) : Request :=
  r.SetHeader "Authorization" ("Basic " ++ basicAuth username password)

/-- The body of an incoming response, an `io.ReadCloser`: `content` is the complete body, and
`failure = some (n, e)` says that reading fails with the error `e` once `n` bytes (characters
of the model) have been delivered, as on a connection that breaks; with `none` the stream
ends cleanly after the complete body. -/
structure BodyReader where
  content : String
  failure : Option (Nat × Error)
deriving DecidableEq, Repr

/-- `bytes.Buffer.ReadFrom`: read until the end of the stream or the first error; the result is
what the buffer holds afterwards, and the error, if any. -/
def BodyReader.ReadFrom (b : BodyReader) : String × Option Error :=
  match b.failure with
  | none => (b.content, none)
  | some (n, e) => (⟨b.content.data.take n⟩, some e)

/-- An incoming `*http.Response`, as far as `execute` touches it. -/
structure HTTPResponse where
  StatusCode : Int
  Body : BodyReader
deriving DecidableEq, Repr

/-- Response - the wrapper `execute` builds: the transport's response and the buffered body. -/
structure Response where
  Response : HTTPResponse
  Body : String
deriving DecidableEq, Repr

/-- The library calls of `execute`, for a payload type `P`: `json.Marshal`, the URL parser
that `http.NewRequest` runs (`none`: the URL is accepted), and `http.Client.Do`. -/
structure Env (P : Type) where
  Marshal : P → Except Error String
  ParseURL : String → Option Error
  Do : Request → Except Error HTTPResponse

/-- `http.NewRequest`: fails when the URL does not parse, and otherwise makes a request with an
empty header. The method is always the valid method POST here. -/
def NewRequest {P : Type} (env : Env P) (method url body : String) : Except Error Request :=
  match env.ParseURL url with
  | some err => .error err
  | none => .ok { Method := method, URL := url, Body := body, Header := [] }

/-- What a call does to the outside world. -/
inductive Event where
  | log (logger : log.Logger) (record : String)
  | send (req : Request)
  | close (resp : HTTPResponse)
deriving DecidableEq, Repr

/-- The result of a call: the returned pair and the effects, in order. -/
structure Outcome where
  resp : Option Response
  err : Option Error
  trace : List Event
deriving DecidableEq, Repr

/-- `Logger.Printf` on the client's logger, when there is one. -/
def logf (logger : Option log.Logger) (record : String) : List Event :=
  match logger with
  | some l => [Event.log l record]
  | none => []

/-- Modelled from the spec: `Response.handleHTTPError` is called by `execute` and is not among
the sources. The spec (4.2, 7): any HTTP status outside the success range 2xx is converted
into an error that carries the status code and the body. -/
def handleHTTPError (r : Response) : Option Error :=
  if r.Response.StatusCode < 200 ∨ 299 < r.Response.StatusCode then
    some (Error.remote r.Response.StatusCode r.Body)
  else none

/-- The method `execute` (`adyen.go`, lines 61-109): execute a request on the Adyen side.
The first argument is `Response.handleHTTPError`. -/
def Adyen.execute {P : Type} (handle : Response → Option Error) (env : Env P) (a : Adyen)
    (method : String) (requestEntity : P) : Outcome :=
  match env.Marshal requestEntity with
  | .error err => ⟨none, some err, []⟩
  | .ok body =>
    let url := a.AdyenURL method
    match NewRequest env "POST" url body with
    | .error err => ⟨none, some err, []⟩
    | .ok req =>
      let t₁ := logf a.Logger ("[Request]: " ++ method ++ " " ++ url ++ "\n" ++ body)
      let req := (req.SetHeader "Content-Type" "application/json").SetBasicAuth
        a.Username a.Password
      match env.Do req with
      | .error err => ⟨none, some err, t₁ ++ [Event.send req]⟩
      | .ok resp =>
        -- the error of `ReadFrom` is dropped
        let buf := resp.Body.ReadFrom.1
        let t₂ := logf a.Logger ("[Response]: " ++ method ++ " " ++ url ++ "\n" ++ buf)
        let providerResponse : Response := ⟨resp, buf⟩
        -- the deferred `resp.Body.Close()` runs on both returns
        let t := t₁ ++ [Event.send req] ++ t₂ ++ [Event.close resp]
        match handle providerResponse with
        | some err => ⟨none, some err, t⟩
        | none => ⟨some providerResponse, none, t⟩

/-! ## Vocabulary of the statements -/

/-- The request the spec describes (6, outbound HTTP): a POST to the endpoint URL with the
encoded payload as body, the JSON content type and the Basic-Auth header of the client. -/
def Adyen.postRequest (a : Adyen) (endpointName body : String) : Request :=
  { Method := "POST"
    URL := a.AdyenURL endpointName
    Body := body
    Header := [("Content-Type", "application/json"),
      ("Authorization", "Basic " ++ basicAuth a.Username a.Password)] }

/-- The requests handed to the transport during a call, in order. -/
def Outcome.sent (o : Outcome) : List Request :=
  o.trace.filterMap fun ev => match ev with
    | .send r => some r
    | _ => none

/-- The records written to the logger during a call, in order. -/
def Outcome.records (o : Outcome) : List String :=
  o.trace.filterMap fun ev => match ev with
    | .log _ r => some r
    | _ => none

/-- The request record of a call. -/
def requestRecord (a : Adyen) (endpointName body : String) : String :=
  "[Request]: " ++ endpointName ++ " " ++ a.AdyenURL endpointName ++ "\n" ++ body

/-- The response record of a call. -/
def responseRecord (a : Adyen) (endpointName body : String) : String :=
  "[Response]: " ++ endpointName ++ " " ++ a.AdyenURL endpointName ++ "\n" ++ body

/-- Read an Authorization header back: after the scheme `Basic` and a blank, the base64
decoding of the rest. -/
def decodeBasicAuth (header : String) : Option (List Nat) :=
  if header.data.take 6 = "Basic ".data then base64Decode (header.data.drop 6) else none

/-- The status codes of the success range 2xx. -/
def isSuccess (status : Int) : Prop := 200 ≤ status ∧ status ≤ 299

instance (status : Int) : Decidable (isSuccess status) :=
  inferInstanceAs (Decidable (200 ≤ status ∧ status ≤ 299))

/-! ## A concrete environment -/

/-- A payload type for the examples: a value with a JSON encoding, given by that encoding, or
a Go channel, which `json.Marshal` refuses. -/
inductive Payload where
  | object (json : String)
  | channel
deriving DecidableEq, Repr

/-- `json.Marshal` on the example payloads. -/
def marshalPayload : Payload → Except Error String
  | .object json => .ok json
  | .channel => .error (Error.failure "json: unsupported type: chan int")

/-- A URL parser that refuses ASCII control characters, as `net/url` does. -/
def rejectControl (url : String) : Option Error :=
  if url.data.any (fun c => c.toNat < 32 || c.toNat == 127) then
    some (Error.failure "net/url: invalid control character in URL")
  else none

/-- The environment of the examples: the transport gives the same answer to every request. -/
def testEnv (answer : Except Error HTTPResponse) : Env Payload :=
  { Marshal := marshalPayload
    ParseURL := rejectControl
    Do := fun _ => answer }

/-- The client of the examples. -/
def testClient : Adyen := New "u" "p" "client" "merchant"

/-- The logger of the examples. -/
def testLogger : log.Logger := ⟨1⟩

/-- The body of the rejection in the spec's scenario. -/
def unauthorizedBody : String := "\x7b\"status\":401,\"message\":\"Unauthorized\"\x7d"

/-- A 401 response whose body is read to its end. -/
def unauthorized : HTTPResponse := ⟨401, ⟨unauthorizedBody, none⟩⟩

/-- The same 401 response on a connection that breaks after ten bytes of the body. -/
def unauthorizedCut : HTTPResponse :=
  ⟨401, ⟨unauthorizedBody, some (10, Error.failure "unexpected EOF")⟩⟩

/-- The body of an accepted payment. -/
def authorisedBody : String :=
  "\x7b\"pspReference\":\"8814\",\"resultCode\":\"Authorised\"\x7d"

/-- A 200 response whose body is read to its end. -/
def authorised : HTTPResponse := ⟨200, ⟨authorisedBody, none⟩⟩

/-- The same 200 response on a connection that breaks after sixteen bytes of the body. -/
def authorisedCut : HTTPResponse :=
  ⟨200, ⟨authorisedBody, some (16, Error.failure "unexpected EOF")⟩⟩

/-- The error of a transport that cannot reach the host. -/
def dialError : Error := Error.failure "dial tcp: lookup pal-test.adyen.com: no such host"

/-! # Theorems -/

/-! ## Base64 and the Basic-Auth header -/

theorem b64Index_b64Char : ∀ n, n < 64 → b64Index (b64Char n) = some n := by
  decide

theorem b64Char_ne_pad : ∀ n, n < 64 → b64Char n ≠ '=' := by
  decide

theorem base64_roundtrip : ∀ bs : List Nat, (∀ b ∈ bs, b < 256) →
    base64Decode (base64Encode bs) = some bs
  | [], _ => rfl
  | [a], h => by
    have ha : a < 256 := h a (by simp)
    have h1 := b64Index_b64Char (a / 4) (by omega)
    have h2 := b64Index_b64Char (a % 4 * 16) (by omega)
    simp only [base64Encode, base64Decode, h1, h2]
    simp
    omega
  | [a, b], h => by
    have ha : a < 256 := h a (by simp)
    have hb : b < 256 := h b (by simp)
    have h1 := b64Index_b64Char (a / 4) (by omega)
    have h2 := b64Index_b64Char (a % 4 * 16 + b / 16) (by omega)
    have h3 := b64Index_b64Char (b % 16 * 4) (by omega)
    have n3 := b64Char_ne_pad (b % 16 * 4) (by omega)
    simp only [base64Encode, base64Decode, h1, h2, h3]
    simp [n3]
    omega
  | a :: b :: c :: rest, h => by
    have ha : a < 256 := h a (by simp)
    have hb : b < 256 := h b (by simp)
    have hc : c < 256 := h c (by simp)
    have ih := base64_roundtrip rest (fun x hx => h x (by simp [hx]))
    have h1 := b64Index_b64Char (a / 4) (by omega)
    have h2 := b64Index_b64Char (a % 4 * 16 + b / 16) (by omega)
    have h3 := b64Index_b64Char (b % 16 * 4 + c / 64) (by omega)
    have h4 := b64Index_b64Char (c % 64) (by omega)
    have n3 := b64Char_ne_pad (b % 16 * 4 + c / 64) (by omega)
    have n4 := b64Char_ne_pad (c % 64) (by omega)
    simp only [base64Encode, base64Decode, h1, h2, h3, h4, ih]
    simp [n3, n4]
    omega

theorem bytesOf_lt (s : String) : ∀ b ∈ bytesOf s, b < 256 := by
  intro b hb
  simp only [bytesOf, List.mem_map] at hb
  obtain ⟨u, _, rfl⟩ := hb
  exact u.val.isLt

theorem decodeBasicAuth_basic (u p : String) :
    decodeBasicAuth ("Basic " ++ basicAuth u p) = some (bytesOf (u ++ ":" ++ p)) := by
  have h6 : ("Basic " ++ basicAuth u p).data = "Basic ".data ++ (basicAuth u p).data := by
    simp [String.data_append]
  have ht : ("Basic ".data ++ (basicAuth u p).data).take 6 = "Basic ".data := rfl
  have hd : ("Basic ".data ++ (basicAuth u p).data).drop 6 = (basicAuth u p).data := rfl
  simp only [decodeBasicAuth, h6, ht, hd, if_true]
  exact base64_roundtrip _ (bytesOf_lt _)

/-! ## The paths of `execute` -/

theorem newRequest_ok {P : Type} (env : Env P) (a : Adyen) (m body : String)
    (hu : env.ParseURL (a.AdyenURL m) = none) :
    NewRequest env "POST" (a.AdyenURL m) body
      = .ok { Method := "POST", URL := a.AdyenURL m, Body := body, Header := [] } := by
  simp [NewRequest, hu]

theorem built_request (a : Adyen) (m body : String) :
    (({ Method := "POST", URL := a.AdyenURL m, Body := body, Header := [] } : Request).SetHeader
      "Content-Type" "application/json").SetBasicAuth a.Username a.Password
      = a.postRequest m body := by
  simp [Request.SetHeader, Request.SetBasicAuth, Adyen.postRequest]

theorem execute_marshal_error {P : Type} (h : Response → Option Error) (env : Env P)
    (a : Adyen) (m : String) (p : P) (e : Error) (hm : env.Marshal p = .error e) :
    a.execute h env m p = ⟨none, some e, []⟩ := by
  simp [Adyen.execute, hm]

theorem execute_url_error {P : Type} (h : Response → Option Error) (env : Env P)
    (a : Adyen) (m : String) (p : P) (body : String) (e : Error)
    (hm : env.Marshal p = .ok body) (hu : env.ParseURL (a.AdyenURL m) = some e) :
    a.execute h env m p = ⟨none, some e, []⟩ := by
  simp [Adyen.execute, hm, NewRequest, hu]

theorem execute_do_error {P : Type} (h : Response → Option Error) (env : Env P)
    (a : Adyen) (m : String) (p : P) (body : String) (e : Error)
    (hm : env.Marshal p = .ok body) (hu : env.ParseURL (a.AdyenURL m) = none)
    (hd : env.Do (a.postRequest m body) = .error e) :
    a.execute h env m p
      = ⟨none, some e, logf a.Logger (requestRecord a m body)
          ++ [Event.send (a.postRequest m body)]⟩ := by
  simp [Adyen.execute, hm, newRequest_ok env a m body hu, built_request, hd, requestRecord]

theorem execute_rejected {P : Type} (h : Response → Option Error) (env : Env P)
    (a : Adyen) (m : String) (p : P) (body : String) (resp : HTTPResponse) (e : Error)
    (hm : env.Marshal p = .ok body) (hu : env.ParseURL (a.AdyenURL m) = none)
    (hd : env.Do (a.postRequest m body) = .ok resp)
    (hh : h ⟨resp, resp.Body.ReadFrom.1⟩ = some e) :
    a.execute h env m p
      = ⟨none, some e, logf a.Logger (requestRecord a m body)
          ++ [Event.send (a.postRequest m body)]
          ++ logf a.Logger (responseRecord a m resp.Body.ReadFrom.1)
          ++ [Event.close resp]⟩ := by
  simp [Adyen.execute, hm, newRequest_ok env a m body hu, built_request, hd, hh,
    requestRecord, responseRecord]

theorem execute_accepted {P : Type} (h : Response → Option Error) (env : Env P)
    (a : Adyen) (m : String) (p : P) (body : String) (resp : HTTPResponse)
    (hm : env.Marshal p = .ok body) (hu : env.ParseURL (a.AdyenURL m) = none)
    (hd : env.Do (a.postRequest m body) = .ok resp)
    (hh : h ⟨resp, resp.Body.ReadFrom.1⟩ = none) :
    a.execute h env m p
      = ⟨some ⟨resp, resp.Body.ReadFrom.1⟩, none, logf a.Logger (requestRecord a m body)
          ++ [Event.send (a.postRequest m body)]
          ++ logf a.Logger (responseRecord a m resp.Body.ReadFrom.1)
          ++ [Event.close resp]⟩ := by
  simp [Adyen.execute, hm, newRequest_ok env a m body hu, built_request, hd, hh,
    requestRecord, responseRecord]

/-! ## The URL builders -/

theorem string_append_right_cancel (p s t : String) (h : p ++ s = p ++ t) : s = t := by
  have hd := congrArg String.data h
  simp only [String.data_append] at hd
  exact String.ext (List.append_cancel_left hd)

theorem string_append_left_cancel (s t q : String) (h : s ++ q = t ++ q) : s = t := by
  have hd := congrArg String.data h
  simp only [String.data_append] at hd
  exact String.ext (List.append_cancel_right hd)

theorem adyenURL_eq (a : Adyen) (e : String) :
    a.AdyenURL e = "https://pal-test.adyen.com/pal/servlet/Payment/v25/" ++ e := by
  have hc : AdyenTestURL ++ "/" ++ APIVersion ++ "/"
      = "https://pal-test.adyen.com/pal/servlet/Payment/v25/" := by decide
  simp only [Adyen.AdyenURL, hc]

/-- C8. `ClientURL` is the fixed string `https://test.adyen.com/hpp/cse/js/`, then the client
identifier, then `.shtml`; two clients with the same client identifier get the same URL,
whatever their other fields; and clients with distinct client identifiers get distinct URLs. -/
theorem clientURL_of_clientID (a b : Adyen) :
    a.ClientURL = "https://test.adyen.com/hpp/cse/js/" ++ a.ClientID ++ ".shtml"
      ∧ (a.ClientID = b.ClientID ↔ a.ClientURL = b.ClientURL) := by
  refine ⟨rfl, fun h => ?_, fun h => ?_⟩
  · simp only [Adyen.ClientURL, h]
  · simp only [Adyen.ClientURL, String.append_assoc] at h
    exact string_append_left_cancel _ _ _ (string_append_right_cancel _ _ _ h)

/-- C9. `AdyenURL e` is `https://pal-test.adyen.com/pal/servlet/Payment/v25/` followed by `e`,
that is the base URL, a slash, the API version `v25`, a slash and the endpoint name verbatim;
the result is the same for every client. -/
theorem adyenURL_of_endpoint (a b : Adyen) (e : String) :
    a.AdyenURL e = "https://pal-test.adyen.com/pal/servlet/Payment/v25/" ++ e
      ∧ a.AdyenURL e = AdyenTestURL ++ "/" ++ APIVersion ++ "/" ++ e
      ∧ APIVersion = "v25"
      ∧ a.AdyenURL e = b.AdyenURL e :=
  ⟨adyenURL_eq a e, rfl, rfl, rfl⟩

/-- The URL of the endpoint `authorise`. -/
theorem adyenURL_authorise :
    testClient.AdyenURL "authorise"
      = "https://pal-test.adyen.com/pal/servlet/Payment/v25/authorise" :=
  (adyenURL_of_endpoint testClient testClient "authorise").1

/-! ## Configuration -/

theorem apply_keeps (a : Adyen) (op : ConfigOp) :
    (op.apply a).Username = a.Username ∧ (op.apply a).Password = a.Password
      ∧ (op.apply a).ClientID = a.ClientID
      ∧ (op.apply a).MerchantAccount = a.MerchantAccount := by
  cases op <;> exact ⟨rfl, rfl, rfl, rfl⟩

theorem configure_keeps (ops : List ConfigOp) (a : Adyen) :
    (configure a ops).Username = a.Username ∧ (configure a ops).Password = a.Password
      ∧ (configure a ops).ClientID = a.ClientID
      ∧ (configure a ops).MerchantAccount = a.MerchantAccount := by
  induction ops generalizing a with
  | nil => exact ⟨rfl, rfl, rfl, rfl⟩
  | cons op ops ih =>
    have h₁ := ih (op.apply a)
    have h₂ := apply_keeps a op
    simp only [configure, List.foldl_cons] at h₁ ⊢
    exact ⟨h₁.1.trans h₂.1, h₁.2.1.trans h₂.2.1, h₁.2.2.1.trans h₂.2.2.1,
      h₁.2.2.2.trans h₂.2.2.2⟩

/-- C10. The credentials and the target URLs of a client are invariant under configuration:
for a client made by `New` and any sequence of `SetCurrency` and `AttachLogger` calls, the
user name, password, client identifier and merchant account keep the values given to `New`,
and `AdyenURL e` and `ClientURL` return the same strings as before; the initial currency is
`EUR` and the initial logger is nil; `SetCurrency c` sets the currency to `c` and changes no
other field, `AttachLogger l` sets the logger to `l` and changes no other field. -/
theorem config_invariant (username password clientID merchantAccount : String)
    (ops : List ConfigOp) (e c : String) (l : Option log.Logger) :
    let a₀ := New username password clientID merchantAccount
    let a := configure a₀ ops
    (a.Username = username ∧ a.Password = password ∧ a.ClientID = clientID
        ∧ a.MerchantAccount = merchantAccount)
      ∧ (a.AdyenURL e = a₀.AdyenURL e ∧ a.ClientURL = a₀.ClientURL)
      ∧ (a₀.Currency = "EUR" ∧ a₀.Logger = none)
      ∧ a.SetCurrency c = { a with Currency := c }
      ∧ a.AttachLogger l = { a with Logger := l } := by
  intro a₀ a
  have hk := configure_keeps ops a₀
  refine ⟨⟨hk.1, hk.2.1, hk.2.2.1, hk.2.2.2⟩, ⟨rfl, ?_⟩, ⟨rfl, rfl⟩, rfl, rfl⟩
  show (configure a₀ ops).ClientURL = a₀.ClientURL
  simp only [Adyen.ClientURL, hk.2.2.1]

/-! ## The executor -/

theorem readFrom_complete (b : BodyReader) (hf : b.failure = none) :
    b.ReadFrom.1 = b.content := by
  simp [BodyReader.ReadFrom, hf]

theorem readFrom_cut (b : BodyReader) (n : Nat) (e : Error) (hf : b.failure = some (n, e)) :
    b.ReadFrom = (⟨b.content.data.take n⟩, some e) := by
  simp [BodyReader.ReadFrom, hf]

theorem sent_of_failed_send (l : Option log.Logger) (r₁ : String) (req : Request)
    (x : Option Response) (y : Option Error) :
    (Outcome.mk x y (logf l r₁ ++ [Event.send req])).sent = [req] := by
  cases l <;> simp [Outcome.sent, logf]

theorem sent_of_answered_send (l : Option log.Logger) (r₁ r₂ : String) (req : Request)
    (resp : HTTPResponse) (x : Option Response) (y : Option Error) :
    (Outcome.mk x y (logf l r₁ ++ [Event.send req] ++ logf l r₂
      ++ [Event.close resp])).sent = [req] := by
  cases l <;> simp [Outcome.sent, logf]

theorem handleHTTPError_rejects (r : Response) (hs : ¬ isSuccess r.Response.StatusCode) :
    handleHTTPError r = some (Error.remote r.Response.StatusCode r.Body) := by
  have h : r.Response.StatusCode < 200 ∨ 299 < r.Response.StatusCode := by
    unfold isSuccess at hs
    omega
  simp [handleHTTPError, h]

theorem handleHTTPError_accepts (r : Response) (hs : isSuccess r.Response.StatusCode) :
    handleHTTPError r = none := by
  have h : ¬ (r.Response.StatusCode < 200 ∨ 299 < r.Response.StatusCode) := by
    unfold isSuccess at hs
    omega
  simp [handleHTTPError, h]

/-- C4. If the payload cannot be encoded to JSON, `execute` returns a nil wrapper with exactly
the serialization error and has no effect on the outside world: no request is sent, no log
record is written, whatever the URL parser and the transport would have done. -/
theorem execute_serialization_error {P : Type} (h : Response → Option Error) (env : Env P)
    (a : Adyen) (m : String) (p : P) (e : Error) (hm : env.Marshal p = .error e) :
    a.execute h env m p = ⟨none, some e, []⟩ :=
  execute_marshal_error h env a m p e hm

theorem execute_serialization_error_witness :
    (testClient.AttachLogger (some testLogger)).execute handleHTTPError
        (testEnv (.ok authorised)) "authorise" Payload.channel
      = ⟨none, some (Error.failure "json: unsupported type: chan int"), []⟩ :=
  execute_serialization_error handleHTTPError (testEnv (.ok authorised))
    (testClient.AttachLogger (some testLogger)) "authorise" Payload.channel _ rfl

/-- C5. If the payload serializes, the request is built and sending it fails at the transport,
`execute` returns a nil wrapper together with exactly the transport's error, and the transport
has been handed exactly one request: a single attempt, no retry. -/
theorem execute_transport_error {P : Type} (h : Response → Option Error) (env : Env P)
    (a : Adyen) (m : String) (p : P) (body : String) (e : Error)
    (hm : env.Marshal p = .ok body) (hu : env.ParseURL (a.AdyenURL m) = none)
    (hd : env.Do (a.postRequest m body) = .error e) :
    (a.execute h env m p).resp = none ∧ (a.execute h env m p).err = some e
      ∧ (a.execute h env m p).sent = [a.postRequest m body] := by
  rw [execute_do_error h env a m p body e hm hu hd]
  exact ⟨rfl, rfl, sent_of_failed_send a.Logger _ _ none (some e)⟩

theorem execute_transport_error_witness :
    (testClient.execute handleHTTPError (testEnv (.error dialError)) "authorise"
        (Payload.object "\x7b\x7d")).resp = none
      ∧ (testClient.execute handleHTTPError (testEnv (.error dialError)) "authorise"
        (Payload.object "\x7b\x7d")).err = some dialError
      ∧ (testClient.execute handleHTTPError (testEnv (.error dialError)) "authorise"
        (Payload.object "\x7b\x7d")).sent = [testClient.postRequest "authorise" "\x7b\x7d"] :=
  execute_transport_error handleHTTPError (testEnv (.error dialError)) testClient "authorise"
    (Payload.object "\x7b\x7d") "\x7b\x7d" dialError rfl (by decide) rfl

/-- C1, amended. If the transport returns a response whose status code is outside [200,299],
`execute` returns a non-nil error and a nil wrapper, never a wrapper together with an error;
and whenever the body of the response is read to its end, the returned error carries the
status code and the complete body of the response. -/
theorem execute_remote_rejection {P : Type} (env : Env P) (a : Adyen) (m : String) (p : P)
    (body : String) (resp : HTTPResponse)
    (hm : env.Marshal p = .ok body) (hu : env.ParseURL (a.AdyenURL m) = none)
    (hd : env.Do (a.postRequest m body) = .ok resp) (hs : ¬ isSuccess resp.StatusCode) :
    ((a.execute handleHTTPError env m p).resp = none
        ∧ (a.execute handleHTTPError env m p).err ≠ none)
      ∧ (resp.Body.failure = none →
        (a.execute handleHTTPError env m p).err
          = some (Error.remote resp.StatusCode resp.Body.content)) := by
  rw [execute_rejected handleHTTPError env a m p body resp _ hm hu hd
    (handleHTTPError_rejects ⟨resp, resp.Body.ReadFrom.1⟩ hs)]
  refine ⟨⟨rfl, by simp⟩, fun hr => ?_⟩
  rw [readFrom_complete resp.Body hr]

theorem unauthorized_is_rejected :
    (testClient.execute handleHTTPError (testEnv (.ok unauthorized)) "authorise"
        (Payload.object "\x7b\x7d")).resp = none
      ∧ (testClient.execute handleHTTPError (testEnv (.ok unauthorized)) "authorise"
        (Payload.object "\x7b\x7d")).err
        = some (Error.remote 401 "\x7b\"status\":401,\"message\":\"Unauthorized\"\x7d")
      ∧ "Unauthorized".data <:+: "\x7b\"status\":401,\"message\":\"Unauthorized\"\x7d".data :=
  ⟨(execute_remote_rejection (testEnv (.ok unauthorized)) testClient "authorise"
      (Payload.object "\x7b\x7d") "\x7b\x7d" unauthorized rfl (by decide) rfl (by decide)).1.1,
    (execute_remote_rejection (testEnv (.ok unauthorized)) testClient "authorise"
      (Payload.object "\x7b\x7d") "\x7b\x7d" unauthorized rfl (by decide) rfl (by decide)).2 rfl,
    ⟨"\x7b\"status\":401,\"message\":\"".data, "\"\x7d".data, rfl⟩⟩

/-- C1 as stated fails. A 401 response whose body cannot be read beyond its first ten bytes:
the error that `execute` returns holds those ten bytes, not the body of the response. -/
theorem rejection_keeps_cut_body :
    ¬ isSuccess unauthorizedCut.StatusCode
      ∧ (testClient.execute handleHTTPError (testEnv (.ok unauthorizedCut)) "authorise"
          (Payload.object "\x7b\x7d")).err = some (Error.remote 401 "\x7b\"status\":")
      ∧ (testClient.execute handleHTTPError (testEnv (.ok unauthorizedCut)) "authorise"
          (Payload.object "\x7b\x7d")).err
        ≠ some (Error.remote unauthorizedCut.StatusCode unauthorizedCut.Body.content) := by
  decide

/-- C2, amended. If the transport returns a response whose status code is in [200,299] and
the body of the response is read to its end, `execute` returns a nil error and a wrapper whose
`Body` is exactly the complete body and whose `Response` is the transport's response. -/
theorem execute_success {P : Type} (env : Env P) (a : Adyen) (m : String) (p : P)
    (body : String) (resp : HTTPResponse)
    (hm : env.Marshal p = .ok body) (hu : env.ParseURL (a.AdyenURL m) = none)
    (hd : env.Do (a.postRequest m body) = .ok resp) (hs : isSuccess resp.StatusCode)
    (hr : resp.Body.failure = none) :
    (a.execute handleHTTPError env m p).err = none
      ∧ (a.execute handleHTTPError env m p).resp = some ⟨resp, resp.Body.content⟩ := by
  rw [execute_accepted handleHTTPError env a m p body resp hm hu hd
    (handleHTTPError_accepts ⟨resp, resp.Body.ReadFrom.1⟩ hs), readFrom_complete resp.Body hr]
  exact ⟨rfl, rfl⟩

theorem authorised_is_returned :
    (testClient.execute handleHTTPError (testEnv (.ok authorised)) "authorise"
        (Payload.object "\x7b\x7d")).err = none
      ∧ (testClient.execute handleHTTPError (testEnv (.ok authorised)) "authorise"
        (Payload.object "\x7b\x7d")).resp
        = some ⟨authorised, "\x7b\"pspReference\":\"8814\",\"resultCode\":\"Authorised\"\x7d"⟩ :=
  execute_success (testEnv (.ok authorised)) testClient "authorise"
    (Payload.object "\x7b\x7d") "\x7b\x7d" authorised rfl (by decide) rfl (by decide) rfl

/-- C2 as stated fails. A 200 response whose body cannot be read beyond its first sixteen
bytes: `execute` returns a nil error and a wrapper, and the `Body` of the wrapper is those
sixteen bytes, not the complete body of the response. -/
theorem success_keeps_cut_body :
    isSuccess authorisedCut.StatusCode
      ∧ (testClient.execute handleHTTPError (testEnv (.ok authorisedCut)) "authorise"
          (Payload.object "\x7b\x7d")).err = none
      ∧ (testClient.execute handleHTTPError (testEnv (.ok authorisedCut)) "authorise"
          (Payload.object "\x7b\x7d")).resp = some ⟨authorisedCut, "\x7b\"pspReference\":"⟩
      ∧ (testClient.execute handleHTTPError (testEnv (.ok authorisedCut)) "authorise"
          (Payload.object "\x7b\x7d")).resp
        ≠ some ⟨authorisedCut, authorisedCut.Body.content⟩ := by
  decide

/-- C6 fails on the code. When the read of the body fails after `n` bytes, `execute` drops the
read error: whenever `handleHTTPError` accepts the wrapper, the call returns a nil error and
the wrapper that holds the `n` bytes read before the failure. -/
theorem execute_drops_read_error {P : Type} (h : Response → Option Error) (env : Env P)
    (a : Adyen) (m : String) (p : P) (body : String) (resp : HTTPResponse) (n : Nat)
    (e : Error) (hm : env.Marshal p = .ok body) (hu : env.ParseURL (a.AdyenURL m) = none)
    (hd : env.Do (a.postRequest m body) = .ok resp) (hf : resp.Body.failure = some (n, e))
    (hh : h ⟨resp, ⟨resp.Body.content.data.take n⟩⟩ = none) :
    (a.execute h env m p).err = none
      ∧ (a.execute h env m p).resp = some ⟨resp, ⟨resp.Body.content.data.take n⟩⟩ := by
  have hb : resp.Body.ReadFrom.1 = ⟨resp.Body.content.data.take n⟩ := by
    rw [readFrom_cut resp.Body n e hf]
  rw [execute_accepted h env a m p body resp hm hu hd (by rw [hb]; exact hh), hb]
  exact ⟨rfl, rfl⟩

theorem read_error_dropped :
    authorisedCut.Body.ReadFrom.2 = some (Error.failure "unexpected EOF")
      ∧ (testClient.execute handleHTTPError (testEnv (.ok authorisedCut)) "authorise"
          (Payload.object "\x7b\x7d")).err = none
      ∧ (testClient.execute handleHTTPError (testEnv (.ok authorisedCut)) "authorise"
          (Payload.object "\x7b\x7d")).resp = some ⟨authorisedCut, "\x7b\"pspReference\":"⟩ :=
  ⟨rfl, execute_drops_read_error handleHTTPError (testEnv (.ok authorisedCut)) testClient
    "authorise" (Payload.object "\x7b\x7d") "\x7b\x7d" authorisedCut 16
    (Error.failure "unexpected EOF") rfl (by decide) rfl rfl (by decide)⟩

theorem execute_sent {P : Type} (h : Response → Option Error) (env : Env P) (a : Adyen)
    (m : String) (p : P) (body : String)
    (hm : env.Marshal p = .ok body) (hu : env.ParseURL (a.AdyenURL m) = none) :
    (a.execute h env m p).sent = [a.postRequest m body] := by
  cases hd : env.Do (a.postRequest m body) with
  | error e =>
    rw [execute_do_error h env a m p body e hm hu hd]
    exact sent_of_failed_send a.Logger _ _ none (some e)
  | ok resp =>
    cases hh : h ⟨resp, resp.Body.ReadFrom.1⟩ with
    | some e =>
      rw [execute_rejected h env a m p body resp e hm hu hd hh]
      exact sent_of_answered_send a.Logger _ _ _ resp none (some e)
    | none =>
      rw [execute_accepted h env a m p body resp hm hu hd hh]
      exact sent_of_answered_send a.Logger _ _ _ resp _ none

theorem postRequest_headers (a : Adyen) (m body : String) :
    (a.postRequest m body).GetHeader "Content-Type" = "application/json"
      ∧ (a.postRequest m body).GetHeader "Authorization"
        = "Basic " ++ basicAuth a.Username a.Password := by
  constructor
  · rfl
  · have hk : (("Content-Type" : String) == "Authorization") = false := by decide
    have hk₂ : (("Authorization" : String) == "Authorization") = true := by decide
    simp only [Request.GetHeader, Adyen.postRequest, List.find?, hk, hk₂]

/-- C3, amended. For every client `a`, endpoint name `m` and payload that serializes to JSON,
provided `http.NewRequest` accepts the URL `a.AdyenURL m`, `execute` hands the transport
exactly one request, and that request has method POST, URL `a.AdyenURL m`, the JSON encoding
of the payload as body, the header `Content-Type: application/json`, and the Basic-Auth
header of `a.Username` and `a.Password` (it decodes to `Username:Password`); every client
with the same user name and password sends the same request, whatever its currency, client
identifier, merchant account and logger. -/
theorem execute_sends_one_request {P : Type} (h : Response → Option Error) (env : Env P)
    (a b : Adyen) (m : String) (p : P) (body : String)
    (hm : env.Marshal p = .ok body) (hu : env.ParseURL (a.AdyenURL m) = none)
    (hb₁ : b.Username = a.Username) (hb₂ : b.Password = a.Password) :
    (∃ r, (a.execute h env m p).sent = [r]
        ∧ r.Method = "POST" ∧ r.URL = a.AdyenURL m ∧ r.Body = body
        ∧ r.GetHeader "Content-Type" = "application/json"
        ∧ r.GetHeader "Authorization" = "Basic " ++ basicAuth a.Username a.Password
        ∧ decodeBasicAuth (r.GetHeader "Authorization")
          = some (bytesOf (a.Username ++ ":" ++ a.Password)))
      ∧ (b.execute h env m p).sent = (a.execute h env m p).sent := by
  have ha := execute_sent h env a m p body hm hu
  have hb := execute_sent h env b m p body hm hu
  have hh := postRequest_headers a m body
  refine ⟨⟨a.postRequest m body, ha, rfl, rfl, rfl, hh.1, hh.2, ?_⟩, ?_⟩
  · rw [hh.2]
    exact decodeBasicAuth_basic a.Username a.Password
  · rw [ha, hb]
    simp only [Adyen.postRequest, Adyen.AdyenURL, hb₁, hb₂]

theorem authorise_sends_one_request :
    (∃ r, (testClient.execute handleHTTPError (testEnv (.ok authorised)) "authorise"
          (Payload.object "\x7b\x7d")).sent = [r]
        ∧ r.Method = "POST"
        ∧ r.URL = testClient.AdyenURL "authorise" ∧ r.Body = "\x7b\x7d"
        ∧ r.GetHeader "Content-Type" = "application/json"
        ∧ r.GetHeader "Authorization" = "Basic " ++ basicAuth "u" "p"
        ∧ decodeBasicAuth (r.GetHeader "Authorization") = some (bytesOf ("u" ++ ":" ++ "p")))
      ∧ (((New "u" "p" "other" "shop").SetCurrency "USD").execute handleHTTPError
          (testEnv (.ok authorised)) "authorise" (Payload.object "\x7b\x7d")).sent
        = (testClient.execute handleHTTPError (testEnv (.ok authorised)) "authorise"
          (Payload.object "\x7b\x7d")).sent :=
  execute_sends_one_request handleHTTPError (testEnv (.ok authorised)) testClient
    ((New "u" "p" "other" "shop").SetCurrency "USD") "authorise" (Payload.object "\x7b\x7d")
    "\x7b\x7d" rfl (by decide) rfl rfl

/-- C3 as stated fails. The payload serializes, but the endpoint name ends in a line feed:
`http.NewRequest` refuses the URL, `execute` returns its error, and the transport is handed
no request at all. -/
theorem line_feed_endpoint_sends_nothing :
    marshalPayload (Payload.object "\x7b\x7d") = .ok "\x7b\x7d"
      ∧ (testClient.execute handleHTTPError (testEnv (.ok authorised)) "authorise\n"
          (Payload.object "\x7b\x7d")).sent = []
      ∧ (testClient.execute handleHTTPError (testEnv (.ok authorised)) "authorise\n"
          (Payload.object "\x7b\x7d")).err
        = some (Error.failure "net/url: invalid control character in URL") :=
  ⟨rfl, by decide, by decide⟩

theorem execute_without_logger {P : Type} (h : Response → Option Error) (env : Env P)
    (a : Adyen) (m : String) (p : P) (l : Option log.Logger) :
    ((a.AttachLogger none).execute h env m p).records = []
      ∧ ((a.AttachLogger none).execute h env m p).resp
        = ((a.AttachLogger l).execute h env m p).resp
      ∧ ((a.AttachLogger none).execute h env m p).err
        = ((a.AttachLogger l).execute h env m p).err
      ∧ ((a.AttachLogger none).execute h env m p).sent
        = ((a.AttachLogger l).execute h env m p).sent := by
  cases hm : env.Marshal p with
  | error e =>
    rw [execute_marshal_error h env (a.AttachLogger none) m p e hm,
      execute_marshal_error h env (a.AttachLogger l) m p e hm]
    exact ⟨rfl, rfl, rfl, rfl⟩
  | ok body =>
    cases hu : env.ParseURL (a.AdyenURL m) with
    | some e =>
      rw [execute_url_error h env (a.AttachLogger none) m p body e hm hu,
        execute_url_error h env (a.AttachLogger l) m p body e hm hu]
      exact ⟨rfl, rfl, rfl, rfl⟩
    | none =>
      cases hd : env.Do (a.postRequest m body) with
      | error e =>
        rw [execute_do_error h env (a.AttachLogger none) m p body e hm hu hd,
          execute_do_error h env (a.AttachLogger l) m p body e hm hu hd]
        cases l <;> exact ⟨rfl, rfl, rfl, rfl⟩
      | ok resp =>
        cases hh : h ⟨resp, resp.Body.ReadFrom.1⟩ with
        | some e =>
          rw [execute_rejected h env (a.AttachLogger none) m p body resp e hm hu hd hh,
            execute_rejected h env (a.AttachLogger l) m p body resp e hm hu hd hh]
          cases l <;> exact ⟨rfl, rfl, rfl, rfl⟩
        | none =>
          rw [execute_accepted h env (a.AttachLogger none) m p body resp hm hu hd hh,
            execute_accepted h env (a.AttachLogger l) m p body resp hm hu hd hh]
          cases l <;> exact ⟨rfl, rfl, rfl, rfl⟩

theorem execute_answered_trace {P : Type} (h : Response → Option Error) (env : Env P)
    (a : Adyen) (m : String) (p : P) (body : String) (resp : HTTPResponse)
    (hm : env.Marshal p = .ok body) (hu : env.ParseURL (a.AdyenURL m) = none)
    (hd : env.Do (a.postRequest m body) = .ok resp) :
    (a.execute h env m p).trace
      = logf a.Logger (requestRecord a m body) ++ [Event.send (a.postRequest m body)]
        ++ logf a.Logger (responseRecord a m resp.Body.ReadFrom.1) ++ [Event.close resp] := by
  cases hh : h ⟨resp, resp.Body.ReadFrom.1⟩ with
  | some e => rw [execute_rejected h env a m p body resp e hm hu hd hh]
  | none => rw [execute_accepted h env a m p body resp hm hu hd hh]

/-- C7, amended. On a client with the logger `l` attached, a call in which the transport
returns a response, whatever its status code and whether the call then succeeds or is
rejected, writes exactly two records to `l`: the request record (endpoint name, URL, request
body) before the request is sent, then the response record (endpoint name, URL, the body as
read); a call whose send fails at the transport writes the request record only; a call that
fails at serialization or at `http.NewRequest` writes no record. On a client with no logger
no record is written, and the returned wrapper, the returned error and the request sent are
the same as with a logger. -/
theorem execute_log_records {P : Type} (h : Response → Option Error) (env : Env P)
    (a : Adyen) (m : String) (p : P) (l : log.Logger) :
    (∀ body resp, env.Marshal p = .ok body → env.ParseURL (a.AdyenURL m) = none →
        env.Do (a.postRequest m body) = .ok resp →
        ((a.AttachLogger (some l)).execute h env m p).trace
          = [Event.log l (requestRecord a m body), Event.send (a.postRequest m body),
              Event.log l (responseRecord a m resp.Body.ReadFrom.1), Event.close resp])
      ∧ (∀ body e, env.Marshal p = .ok body → env.ParseURL (a.AdyenURL m) = none →
        env.Do (a.postRequest m body) = .error e →
        ((a.AttachLogger (some l)).execute h env m p).trace
          = [Event.log l (requestRecord a m body), Event.send (a.postRequest m body)])
      ∧ (∀ e, env.Marshal p = .error e →
        ((a.AttachLogger (some l)).execute h env m p).trace = [])
      ∧ (∀ body e, env.Marshal p = .ok body → env.ParseURL (a.AdyenURL m) = some e →
        ((a.AttachLogger (some l)).execute h env m p).trace = [])
      ∧ ((a.AttachLogger none).execute h env m p).records = []
      ∧ ((a.AttachLogger none).execute h env m p).resp
        = ((a.AttachLogger (some l)).execute h env m p).resp
      ∧ ((a.AttachLogger none).execute h env m p).err
        = ((a.AttachLogger (some l)).execute h env m p).err
      ∧ ((a.AttachLogger none).execute h env m p).sent
        = ((a.AttachLogger (some l)).execute h env m p).sent := by
  refine ⟨?_, ?_, ?_, ?_, execute_without_logger h env a m p (some l)⟩
  · intro body resp hm hu hd
    rw [execute_answered_trace h env (a.AttachLogger (some l)) m p body resp hm hu hd]
    rfl
  · intro body e hm hu hd
    rw [execute_do_error h env (a.AttachLogger (some l)) m p body e hm hu hd]
    rfl
  · intro e hm
    rw [execute_marshal_error h env (a.AttachLogger (some l)) m p e hm]
  · intro body e hm hu
    rw [execute_url_error h env (a.AttachLogger (some l)) m p body e hm hu]

theorem rejected_call_logs_two_records :
    ((testClient.AttachLogger (some testLogger)).execute handleHTTPError
        (testEnv (.ok unauthorized)) "authorise" (Payload.object "\x7b\x7d")).trace
      = [Event.log testLogger (requestRecord testClient "authorise" "\x7b\x7d"),
          Event.send (testClient.postRequest "authorise" "\x7b\x7d"),
          Event.log testLogger (responseRecord testClient "authorise" unauthorizedBody),
          Event.close unauthorized] :=
  (execute_log_records handleHTTPError (testEnv (.ok unauthorized)) testClient "authorise"
    (Payload.object "\x7b\x7d") testLogger).1 "\x7b\x7d" unauthorized rfl (by decide) rfl

/-- C7 as stated fails. With a logger attached, a call whose send fails at the transport
writes one record, the request record, and a call whose payload does not serialize writes
none. -/
theorem failed_calls_log_fewer_records :
    ((testClient.AttachLogger (some testLogger)).execute handleHTTPError
        (testEnv (.error dialError)) "authorise" (Payload.object "\x7b\x7d")).records
      = ["[Request]: authorise https://pal-test.adyen.com/pal/servlet/Payment/v25/authorise\n\x7b\x7d"]
      ∧ ((testClient.AttachLogger (some testLogger)).execute handleHTTPError
        (testEnv (.error dialError)) "authorise" Payload.channel).records = [] := by
  decide

end adyen
